import Mathlib

/-!
A shallow embedding of the alignment module `bigstream/align.py`.

External collaborators (the SimpleITK image-registration-method object, the blob
detector, the correlation point matcher, the cv2 consensus affine fitter, and
the transform appliers) are modelled as oracle parameters; the control flow
around them is translated from the source.  Machine floats are modelled as
rationals where the code path is exact (scores, matrix entries, spacings) and
as reals for the `exp`/`log` mathematics of the random parameter draws.  A
Python exception is an `Except.error`.
-/

/-- A rank-2 numpy array (a matrix) over a scalar type. -/
abbrev Mat (K : Type) := List (List K)

/-- Model of `np.eye(n)`: the `n` by `n` identity matrix. -/
def np_eye (K : Type) [Zero K] [One K] (n : Nat) : Mat K :=
  (List.range n).map (fun i => (List.range n).map (fun j => if i = j then (1 : K) else 0))

/-- Model of `np.diag(m)` for a rank-2 array: the entries `m[i][i]` for
`i < min(rows, cols)`.  For the 3-by-4 estimated affine of the source this is
the diagonal of its linear part. -/
def np_diag {K : Type} (m : Mat K) : List K :=
  m.enum.filterMap (fun p => p.2.get? p.1)

/-- `Rat.floor` (the executable floor used below) agrees with the ambient
`Int.floor` on `ℚ`. -/
theorem rat_floor_eq_floor (q : ℚ) : Rat.floor q = ⌊q⌋ := by
  rw [Rat.floor_def', Rat.floor_def]

/- ----------------------------------------------------------------------
random_affine_search (bigstream/align.py lines 469-726)
---------------------------------------------------------------------- -/

/-- Row 0 of the random-search parameter table:
`params = np.zeros((random_iterations+1, 12)); params[:, 6:9] = 1` leaves the
first row all zero except the three scale entries, which are 1. -/
def identity_params : List ℚ := [0, 0, 0, 0, 0, 0, 1, 1, 1, 0, 0, 0]

/-- The full parameter table: row 0 is always `identity_params`; rows `1:` are
the random draws (`params[1:, 0:3] = ...` etc.), supplied here as an oracle
list since the drawn values come from `np.random`. -/
def params_table (random_rows : List (List ℚ)) : List (List ℚ) :=
  identity_params :: random_rows

/-- `np.finfo(np.float64).max`, exactly: `(2^53 - 1) * 2^971`. -/
def WORST_POSSIBLE_SCORE : ℚ := (2 ^ 53 - 1) * 2 ^ 971

/-- The irm-mode `score_affine` closure of the source: the metric evaluation is
wrapped in try/except and a failure is scored as `WORST_POSSIBLE_SCORE`. -/
def score_affine_irm {M : Type} (metric_evaluate : M → Except String ℚ)
    (affine : M) : ℚ :=
  match metric_evaluate affine with
  | Except.ok v => v
  | Except.error _ => WORST_POSSIBLE_SCORE

/-- The patch-mutual-information-mode `score_affine` closure of the source: the
metric call has no try/except, so a failure propagates. -/
def score_affine_mi {M : Type} (patch_mi : M → Except String ℚ)
    (affine : M) : Except String ℚ :=
  patch_mi affine

/-- Model of `np.argpartition(scores, nreturn)[:nreturn]` followed by
`params[np.argsort(scores)]`: the `nreturn` lowest-scoring parameter rows,
sorted ascending by score.  `np.argpartition` raises `ValueError` when the
partition index `kth = nreturn` is out of bounds, i.e. when
`nreturn >= len(scores)`. -/
def select_best {P : Type} (params : List P) (scores : List ℚ) (nreturn : Nat) :
    Option (List P) :=
  if nreturn < scores.length then
    some ((((params.zip scores).mergeSort
      (fun a b => decide (a.2 ≤ b.2))).take nreturn).map Prod.fst)
  else none

/-- `random_affine_search` after parameter generation: convert each parameter
row to an affine matrix (`to_matrix` stands for the external
`ut.physical_parameters_to_affine_matrix_3d` with the fixed center), score it
with the mode-selected `score_affine`, then select and return the `nreturn`
best.  A raising `score_affine` (patch-mi mode) or an out-of-bounds partition
index makes the whole call raise. -/
def random_affine_search_model {M : Type} (to_matrix : List ℚ → M)
    (score_affine : M → Except String ℚ) (random_rows : List (List ℚ))
    (nreturn : Nat) : Except String (List M) := do
  let params := params_table random_rows
  let scores ← params.mapM (fun p => score_affine (to_matrix p))
  match select_best params scores nreturn with
  | some best => Except.ok (best.map to_matrix)
  | none => Except.error "ValueError: kth out of bounds"

/-- `List.mapM` of a function that never fails returns `Except.ok` of the map:
the irm-mode scoring loop cannot raise. -/
theorem mapM_ok_of_total {α β : Type} (g : α → β) (l : List α) :
    l.mapM (fun a => (Except.ok (g a) : Except String β)) = Except.ok (l.map g) := by
  suffices h : ∀ (l : List α) (acc : List β),
      List.mapM.loop (fun a => (Except.ok (g a) : Except String β)) l acc
        = Except.ok (acc.reverse ++ l.map g) by
    simpa using h l []
  intro l
  induction l with
  | nil =>
      intro acc
      simp only [List.mapM.loop, List.map_nil, List.append_nil]
      rfl
  | cons a t ih =>
      intro acc
      simp only [List.mapM.loop, List.map_cons]
      rw [show ((Except.ok (g a) : Except String β) >>= fun b =>
            List.mapM.loop (fun a => (Except.ok (g a) : Except String β)) t (b :: acc))
          = List.mapM.loop (fun a => (Except.ok (g a) : Except String β)) t (g a :: acc)
        from rfl]
      rw [ih (g a :: acc)]
      simp

/-- Claim C1: with `random_iterations = 0` and `nreturn = 1` the function does
not return the identity matrix: the score array has length 1 and
`np.argpartition(scores, 1)` raises `ValueError` (partition index 1 is out of
bounds for an axis of size 1), so the call raises instead of returning the
sole identity candidate.  This holds for every image pair, i.e. for every
metric oracle and every parameter-to-matrix conversion. -/
theorem random_affine_search_zero_iterations_raises {M : Type}
    (to_matrix : List ℚ → M) (metric_evaluate : M → Except String ℚ) :
    random_affine_search_model to_matrix
        (fun m => Except.ok (score_affine_irm metric_evaluate m)) [] 1
      = Except.error "ValueError: kth out of bounds" := rfl

/-- Claim C6 counterexample: in the patch-mutual-information scoring mode there
is no try/except around the metric, so a failed metric evaluation propagates
out of `random_affine_search` instead of being scored as the maximum float64
value; the claim that no exception propagates in both scoring modes is false. -/
theorem random_search_mi_mode_exception_escapes :
    random_affine_search_model (fun _ => (0 : ℚ))
        (score_affine_mi (fun _ => Except.error "metric evaluation failed")) [] 1
      = Except.error "metric evaluation failed" := rfl

/-- Claim C6 (amended): in the configured intensity-metric-engine mode every
candidate whose metric evaluation fails is scored as the maximum representable
float64 value and the scoring loop itself never raises; in the patch-wise
mutual-information mode there is no such guard and a failed metric evaluation
propagates out of the function. -/
theorem random_search_failed_metric_scoring {M : Type} (to_matrix : List ℚ → M)
    (metric_evaluate patch_mi : M → Except String ℚ) (affine : M)
    (rows : List (List ℚ)) (nreturn : Nat) (e : String)
    (h1 : metric_evaluate affine = Except.error e)
    (h2 : patch_mi (to_matrix identity_params) = Except.error e) :
    score_affine_irm metric_evaluate affine = WORST_POSSIBLE_SCORE ∧
    (params_table rows).mapM
        (fun p => (Except.ok (score_affine_irm metric_evaluate (to_matrix p))
          : Except String ℚ))
      = Except.ok ((params_table rows).map
        (fun p => score_affine_irm metric_evaluate (to_matrix p))) ∧
    random_affine_search_model to_matrix (score_affine_mi patch_mi) rows nreturn
      = Except.error e := by
  refine ⟨?_, ?_, ?_⟩
  · rw [score_affine_irm, h1]
  · exact mapM_ok_of_total _ _
  · rw [random_affine_search_model]
    show (params_table rows).mapM (fun p => score_affine_mi patch_mi (to_matrix p))
        >>= _ = Except.error e
    rw [params_table]
    show List.mapM.loop _ (identity_params :: rows) [] >>= _ = Except.error e
    rw [List.mapM.loop]
    show (score_affine_mi patch_mi (to_matrix identity_params) >>= _) >>= _
        = Except.error e
    rw [score_affine_mi, h2]
    rfl

/-- Witness for the amended claim C6 at a concrete instance. -/
theorem random_search_failed_metric_scoring_witness :
    score_affine_irm (fun _ : Unit => Except.error "boom") () = WORST_POSSIBLE_SCORE ∧
    (params_table []).mapM
        (fun p => (Except.ok (score_affine_irm (fun _ : Unit => Except.error "boom")
          ((fun _ => ()) p)) : Except String ℚ))
      = Except.ok ((params_table []).map
        (fun p => score_affine_irm (fun _ : Unit => Except.error "boom")
          ((fun _ => ()) p))) ∧
    random_affine_search_model (fun _ => ())
        (score_affine_mi (fun _ : Unit => Except.error "boom")) [] 0
      = Except.error "boom" :=
  random_search_failed_metric_scoring (fun _ => ())
    (fun _ => Except.error "boom") (fun _ => Except.error "boom") () [] 0 "boom"
    rfl rfl

/- ----------------------------------------------------------------------
feature_point_ransac_affine_align (bigstream/align.py lines 202-466)
---------------------------------------------------------------------- -/

/-- The sanity check `np.any(np.abs(np.diag(Aff) - 1) > diagonal_constraint)`
on the 3-by-4 estimated affine. -/
def diag_deviates {K : Type} [LinearOrderedRing K] (Aff : Mat K)
    (diagonal_constraint : K) : Bool :=
  (np_diag Aff).any (fun d => decide (diagonal_constraint < |d - 1|))

/-- `affine = np.eye(ndim + 1); affine[:ndim, :] = Aff`: embed the fitter
output (which has `ndim` rows) into a homogeneous matrix. -/
def embed_affine {K : Type} [Zero K] [One K] (ndim : Nat) (Aff : Mat K) : Mat K :=
  (np_eye K (ndim + 1)).enum.map (fun p => (Aff.get? p.1).getD p.2)

/-- `feature_point_ransac_affine_align` around its external oracles: the blob
detector outputs (`fix_spots`/`mov_spots`), the matcher outputs
(`matched_fix`/`matched_mov`) and the consensus fitter output.
`fitter_success` is the first return value `r` of `cv2.estimateAffine3D` — the
source never reads it.  `fitter_matrix` is the second return value `Aff`,
which is absent (`None`) when the fitter fails to produce a model; the source
then calls `np.diag(None)`, which raises. -/
def feature_point_ransac_model {K : Type} [LinearOrderedRing K]
    (ndim : Nat) (fix_spots mov_spots : List (List K))
    (matched_fix matched_mov : List (List K))
    (fitter_success : Bool) (fitter_matrix : Option (Mat K))
    (diagonal_constraint : K) (default : Option (Mat K)) : Except String (Mat K) :=
  let d := default.getD (np_eye K (ndim + 1))
  if fix_spots.length < 100 then Except.ok d
  else if mov_spots.length < 100 then Except.ok d
  else if matched_fix.length < 50 ∨ matched_mov.length < 50 then Except.ok d
  else
    match fitter_matrix with
    | none => Except.error "ValueError: Input must be 1- or 2-d."
    | some Aff =>
        if diag_deviates Aff diagonal_constraint then Except.ok d
        else Except.ok (embed_affine ndim Aff)

/-- Claim C3: when the consensus fitter reports failure and produces no valid
matrix, the source does not return the default: `Aff` is `None`, the success
flag is never checked, and `np.diag(None)` raises, so an exception escapes the
stage boundary.  Shown at a concrete input with enough spots and matches to
reach the fitting step. -/
theorem ransac_fitter_failure_escapes :
    feature_point_ransac_model 3 (List.replicate 100 ([] : List ℤ))
        (List.replicate 100 []) (List.replicate 50 []) (List.replicate 50 [])
        false none 0 none
      = Except.error "ValueError: Input must be 1- or 2-d." := rfl

/-- Claim C7: whenever fewer than 100 fixed-image spots, fewer than 100
moving-image spots, or fewer than 50 matched pairs are available, the function
returns exactly the default argument (the identity of size `ndim + 1` when
`default` is unset), without raising. -/
theorem ransac_insufficient_data_returns_default {K : Type} [LinearOrderedRing K]
    (ndim : Nat) (fix_spots mov_spots matched_fix matched_mov : List (List K))
    (fitter_success : Bool) (fitter_matrix : Option (Mat K))
    (c : K) (default : Option (Mat K))
    (h : fix_spots.length < 100 ∨ mov_spots.length < 100 ∨
         matched_fix.length < 50 ∨ matched_mov.length < 50) :
    feature_point_ransac_model ndim fix_spots mov_spots matched_fix matched_mov
        fitter_success fitter_matrix c default
      = Except.ok (default.getD (np_eye K (ndim + 1))) := by
  by_cases h1 : fix_spots.length < 100
  · simp [feature_point_ransac_model, h1]
  · by_cases h2 : mov_spots.length < 100
    · simp [feature_point_ransac_model, h1, h2]
    · have h3 : matched_fix.length < 50 ∨ matched_mov.length < 50 := by tauto
      simp [feature_point_ransac_model, h1, h2, h3]

/-- Witness for claim C7: no spots at all, unset default, identity returned. -/
theorem ransac_insufficient_data_returns_default_witness :
    feature_point_ransac_model 3 ([] : List (List ℤ)) [] [] [] true none 0 none
      = Except.ok ((none : Option (Mat ℤ)).getD (np_eye ℤ (3 + 1))) :=
  ransac_insufficient_data_returns_default 3 [] [] [] [] true none 0 none
    (Or.inl (by decide))

/-- Claim C10: the default is returned whenever some diagonal entry of the
estimated affine linear part deviates from 1 by more than
`diagonal_constraint` (whatever the spot and match counts resolved to). -/
theorem ransac_degenerate_diagonal_returns_default {K : Type} [LinearOrderedRing K]
    (ndim : Nat) (fix_spots mov_spots matched_fix matched_mov : List (List K))
    (fitter_success : Bool) (Aff : Mat K) (c : K) (default : Option (Mat K))
    (hdev : diag_deviates Aff c = true) :
    feature_point_ransac_model ndim fix_spots mov_spots matched_fix matched_mov
        fitter_success (some Aff) c default
      = Except.ok (default.getD (np_eye K (ndim + 1))) := by
  by_cases h1 : fix_spots.length < 100
  · simp [feature_point_ransac_model, h1]
  · by_cases h2 : mov_spots.length < 100
    · simp [feature_point_ransac_model, h1, h2]
    · by_cases h3 : matched_fix.length < 50 ∨ matched_mov.length < 50
      · simp [feature_point_ransac_model, h1, h2, h3]
      · simp [feature_point_ransac_model, h1, h2, h3, hdev]

/-- Witness for claim C10 at the example of the claim: a synthetic affine with
diagonal `[2.0, 1.0, 1.0]` under `diagonal_constraint = 0.25` is rejected to
the default. -/
theorem ransac_degenerate_diagonal_returns_default_witness :
    feature_point_ransac_model 3 (List.replicate 100 ([] : List ℚ))
        (List.replicate 100 []) (List.replicate 50 []) (List.replicate 50 [])
        true (some [[2, 0, 0, 0], [0, 1, 0, 0], [0, 0, 1, 0]]) (1/4) none
      = Except.ok ((none : Option (Mat ℚ)).getD (np_eye ℚ (3 + 1))) :=
  ransac_degenerate_diagonal_returns_default 3 _ _ _ _ true _ _ none (by
    simp [diag_deviates, np_diag, List.enum]
    norm_num)

/- ----------------------------------------------------------------------
affine_align (lines 729-907) and deformable_align (lines 910-1099)
---------------------------------------------------------------------- -/

/-- The observable behaviour of one configured registration-method run on a
fixed image pair: the two metric evaluations and the `Execute` call may each
raise; `optimized` is the transform read back after the run. -/
structure IRMRun (R : Type) where
  metric_evaluate_initial : Except String ℚ
  execute : Except String Unit
  metric_evaluate_final : Except String ℚ
  optimized : R

/-- Some engine call of the run raised. -/
def IRMRun.raised {R : Type} (run : IRMRun R) : Prop :=
  (∃ e, run.metric_evaluate_initial = Except.error e) ∨
  (∃ e, run.execute = Except.error e) ∨
  (∃ e, run.metric_evaluate_final = Except.error e)

/-- The run completed with the given initial and final metric values. -/
def IRMRun.completed {R : Type} (run : IRMRun R) (initial final : ℚ) : Prop :=
  run.metric_evaluate_initial = Except.ok initial ∧
  run.execute = Except.ok () ∧
  run.metric_evaluate_final = Except.ok final

/-- The try/except and improvement test closing `affine_align` (lines 888-907):
any engine exception yields the default, and the optimized matrix is returned
only on strict metric improvement. -/
def affine_align_result {R : Type} (run : IRMRun R) (default : R) : R :=
  match run.metric_evaluate_initial with
  | Except.error _ => default
  | Except.ok initial_metric_value =>
    match run.execute with
    | Except.error _ => default
    | Except.ok _ =>
      match run.metric_evaluate_final with
      | Except.error _ => default
      | Except.ok final_metric_value =>
          if final_metric_value < initial_metric_value then run.optimized
          else default

/-- The identical try/except and improvement test closing `deformable_align`
(lines 1074-1099); the result is the `(params, field)` pair. -/
def deformable_align_result {P F : Type} (run : IRMRun (P × F))
    (default : P × F) : P × F :=
  match run.metric_evaluate_initial with
  | Except.error _ => default
  | Except.ok initial_metric_value =>
    match run.execute with
    | Except.error _ => default
    | Except.ok _ =>
      match run.metric_evaluate_final with
      | Except.error _ => default
      | Except.ok final_metric_value =>
          if final_metric_value < initial_metric_value then run.optimized
          else default

/-- If some engine call raised, `affine_align` returns the default. -/
theorem affine_align_result_of_raised {R : Type} (run : IRMRun R) (d : R)
    (h : run.raised) : affine_align_result run d = d := by
  obtain ⟨mi, ex, mf, opt⟩ := run
  rcases mi with e1 | v1
  · rfl
  · rcases ex with e2 | v2
    · rfl
    · rcases mf with e3 | v3
      · rfl
      · rcases h with ⟨e, he⟩ | ⟨e, he⟩ | ⟨e, he⟩ <;> simp at he

/-- If the run completed, `affine_align` returns the optimized transform
exactly on strict improvement, else the default. -/
theorem affine_align_result_of_completed {R : Type} (run : IRMRun R) (d : R)
    (initial final : ℚ) (h : run.completed initial final) :
    affine_align_result run d = if final < initial then run.optimized else d := by
  obtain ⟨mi, ex, mf, opt⟩ := run
  have h1 : mi = Except.ok initial := h.1
  have h2 : ex = Except.ok () := h.2.1
  have h3 : mf = Except.ok final := h.2.2
  subst h1; subst h2; subst h3
  rfl

/-- If some engine call raised, `deformable_align` returns the default. -/
theorem deformable_align_result_of_raised {P F : Type} (run : IRMRun (P × F))
    (d : P × F) (h : run.raised) : deformable_align_result run d = d := by
  obtain ⟨mi, ex, mf, opt⟩ := run
  rcases mi with e1 | v1
  · rfl
  · rcases ex with e2 | v2
    · rfl
    · rcases mf with e3 | v3
      · rfl
      · rcases h with ⟨e, he⟩ | ⟨e, he⟩ | ⟨e, he⟩ <;> simp at he

/-- If the run completed, `deformable_align` returns the optimized pair exactly
on strict improvement, else the default. -/
theorem deformable_align_result_of_completed {P F : Type} (run : IRMRun (P × F))
    (d : P × F) (initial final : ℚ) (h : run.completed initial final) :
    deformable_align_result run d = if final < initial then run.optimized else d := by
  obtain ⟨mi, ex, mf, opt⟩ := run
  have h1 : mi = Except.ok initial := h.1
  have h2 : ex = Except.ok () := h.2.1
  have h3 : mf = Except.ok final := h.2.2
  subst h1; subst h2; subst h3
  rfl

/-- Claim C2: for both `affine_align` and `deformable_align`, an engine
exception yields exactly the default; a final metric that does not strictly
improve on the initial metric yields exactly the default; and the optimized
transform is returned only when the final metric is strictly lower than the
initial metric. -/
theorem align_default_fallback_semantics {R P F : Type}
    (runA : IRMRun R) (dA : R) (runD : IRMRun (P × F)) (dD : P × F) :
    (runA.raised → affine_align_result runA dA = dA) ∧
    (∀ initial final, runA.completed initial final → initial ≤ final →
      affine_align_result runA dA = dA) ∧
    (∀ initial final, runA.completed initial final → final < initial →
      affine_align_result runA dA = runA.optimized) ∧
    (affine_align_result runA dA ≠ dA →
      ∃ initial final, runA.completed initial final ∧ final < initial ∧
        affine_align_result runA dA = runA.optimized) ∧
    (runD.raised → deformable_align_result runD dD = dD) ∧
    (∀ initial final, runD.completed initial final → initial ≤ final →
      deformable_align_result runD dD = dD) ∧
    (∀ initial final, runD.completed initial final → final < initial →
      deformable_align_result runD dD = runD.optimized) ∧
    (deformable_align_result runD dD ≠ dD →
      ∃ initial final, runD.completed initial final ∧ final < initial ∧
        deformable_align_result runD dD = runD.optimized) := by
  refine ⟨affine_align_result_of_raised runA dA, ?_, ?_, ?_,
    deformable_align_result_of_raised runD dD, ?_, ?_, ?_⟩
  · intro initial final hc hle
    rw [affine_align_result_of_completed runA dA initial final hc,
      if_neg (not_lt.mpr hle)]
  · intro initial final hc hlt
    rw [affine_align_result_of_completed runA dA initial final hc, if_pos hlt]
  · intro hne
    obtain ⟨mi, ex, mf, opt⟩ := runA
    rcases mi with e1 | v1
    · exact absurd (affine_align_result_of_raised _ dA (Or.inl ⟨e1, rfl⟩)) hne
    · rcases ex with e2 | v2
      · exact absurd
          (affine_align_result_of_raised _ dA (Or.inr (Or.inl ⟨e2, rfl⟩))) hne
      · rcases mf with e3 | v3
        · exact absurd
            (affine_align_result_of_raised _ dA (Or.inr (Or.inr ⟨e3, rfl⟩))) hne
        · have hc : IRMRun.completed
              ⟨Except.ok v1, Except.ok v2, Except.ok v3, opt⟩ v1 v3 :=
            ⟨rfl, rfl, rfl⟩
          rcases lt_or_le v3 v1 with hlt | hle
          · exact ⟨v1, v3, hc, hlt, by
              rw [affine_align_result_of_completed _ dA v1 v3 hc, if_pos hlt]⟩
          · exact absurd (by
              rw [affine_align_result_of_completed _ dA v1 v3 hc,
                if_neg (not_lt.mpr hle)]) hne
  · intro initial final hc hle
    rw [deformable_align_result_of_completed runD dD initial final hc,
      if_neg (not_lt.mpr hle)]
  · intro initial final hc hlt
    rw [deformable_align_result_of_completed runD dD initial final hc, if_pos hlt]
  · intro hne
    obtain ⟨mi, ex, mf, opt⟩ := runD
    rcases mi with e1 | v1
    · exact absurd (deformable_align_result_of_raised _ dD (Or.inl ⟨e1, rfl⟩)) hne
    · rcases ex with e2 | v2
      · exact absurd
          (deformable_align_result_of_raised _ dD (Or.inr (Or.inl ⟨e2, rfl⟩))) hne
      · rcases mf with e3 | v3
        · exact absurd
            (deformable_align_result_of_raised _ dD (Or.inr (Or.inr ⟨e3, rfl⟩))) hne
        · have hc : IRMRun.completed
              ⟨Except.ok v1, Except.ok v2, Except.ok v3, opt⟩ v1 v3 :=
            ⟨rfl, rfl, rfl⟩
          rcases lt_or_le v3 v1 with hlt | hle
          · exact ⟨v1, v3, hc, hlt, by
              rw [deformable_align_result_of_completed _ dD v1 v3 hc, if_pos hlt]⟩
          · exact absurd (by
              rw [deformable_align_result_of_completed _ dD v1 v3 hc,
                if_neg (not_lt.mpr hle)]) hne

/-- Witness for claim C2: a raising affine run returns its default 7; an
improving deformable run (initial metric 1, final 0) returns its optimized
pair. -/
theorem align_default_fallback_semantics_witness :
    affine_align_result
        (⟨Except.error "boom", Except.ok (), Except.ok 0, (5 : ℚ)⟩ : IRMRun ℚ) 7 = 7 ∧
    deformable_align_result
        (⟨Except.ok 1, Except.ok (), Except.ok 0, ((0 : ℚ), (0 : ℚ))⟩
          : IRMRun (ℚ × ℚ)) (1, 1) = (0, 0) := by
  constructor
  · exact (align_default_fallback_semantics
      (⟨Except.error "boom", Except.ok (), Except.ok 0, (5 : ℚ)⟩ : IRMRun ℚ) 7
      (⟨Except.ok 1, Except.ok (), Except.ok 0, ((0 : ℚ), (0 : ℚ))⟩
        : IRMRun (ℚ × ℚ)) (1, 1)).1 (Or.inl ⟨"boom", rfl⟩)
  · exact (align_default_fallback_semantics
      (⟨Except.error "boom", Except.ok (), Except.ok 0, (5 : ℚ)⟩ : IRMRun ℚ) 7
      (⟨Except.ok 1, Except.ok (), Except.ok 0, ((0 : ℚ), (0 : ℚ))⟩
        : IRMRun (ℚ × ℚ)) (1, 1)).2.2.2.2.2.2.1 1 0 ⟨rfl, rfl, rfl⟩ zero_lt_one

/- ----------------------------------------------------------------------
affine_align default resolution (lines 822-826)
---------------------------------------------------------------------- -/

/-- The `initial_condition` argument of `affine_align`: `None`, the string
marker `"CENTER"`, or an explicit matrix (the only case in which
`isinstance(initial_condition, np.ndarray)` holds at line 824). -/
inductive InitialCondition (K : Type) where
  | notGiven : InitialCondition K
  | center : InitialCondition K
  | matrix : Mat K → InitialCondition K

/-- The default-resolution prologue of `affine_align`:
`if default is None: default = np.eye(fix.ndim + 1)`;
`initial_transform_given = isinstance(initial_condition, np.ndarray)`;
`if initial_transform_given and np.all(default == np.eye(fix.ndim + 1)):
default = initial_condition`. -/
def affine_align_default {K : Type} [Zero K] [One K] [DecidableEq K]
    (ndim : Nat) (default : Option (Mat K))
    (initial_condition : InitialCondition K) : Mat K :=
  let d := default.getD (np_eye K (ndim + 1))
  match initial_condition with
  | InitialCondition.matrix m => if d = np_eye K (ndim + 1) then m else d
  | _ => d

/-- Claim C5 counterexample: an explicitly supplied default that happens to
equal the identity is not returned as given — a matrix initial condition
overrides it, because line 825 tests the value `np.all(default == np.eye(...))`
rather than whether a default argument was passed. -/
theorem affine_align_default_explicit_identity_overridden :
    affine_align_default 3 (some (np_eye ℤ 4))
        (InitialCondition.matrix
          [[1, 0, 0, 5], [0, 1, 0, 0], [0, 0, 1, 0], [0, 0, 0, 1]])
      = [[1, 0, 0, 5], [0, 1, 0, 0], [0, 0, 1, 0], [0, 0, 0, 1]] ∧
    ([[1, 0, 0, 5], [0, 1, 0, 0], [0, 0, 1, 0], [0, 0, 0, 1]] : Mat ℤ)
      ≠ np_eye ℤ 4 := by
  constructor
  · rfl
  · decide

/-- Claim C5 (amended): the fallback value of `affine_align` resolves to the
identity when neither an explicit default nor a matrix initial condition is
supplied; to the matrix initial condition whenever one is supplied and the
(explicit or implicit) default equals the identity; and to the explicitly
supplied default in every other case — in particular exactly as given whenever
it differs from the identity. -/
theorem affine_align_default_resolution {K : Type} [Zero K] [One K] [DecidableEq K]
    (ndim : Nat) (d m : Mat K) (ic : InitialCondition K) :
    (affine_align_default ndim none (InitialCondition.notGiven (K := K))
      = np_eye K (ndim + 1)) ∧
    (affine_align_default ndim none (InitialCondition.center (K := K))
      = np_eye K (ndim + 1)) ∧
    (affine_align_default ndim none (InitialCondition.matrix m) = m) ∧
    (d ≠ np_eye K (ndim + 1) → affine_align_default ndim (some d) ic = d) ∧
    (affine_align_default ndim (some (np_eye K (ndim + 1)))
      (InitialCondition.matrix m) = m) ∧
    (affine_align_default ndim (some d) (InitialCondition.notGiven (K := K)) = d) ∧
    (affine_align_default ndim (some d) (InitialCondition.center (K := K)) = d) := by
  refine ⟨rfl, rfl, ?_, ?_, ?_, rfl, rfl⟩
  · simp [affine_align_default]
  · intro hne
    cases ic <;> simp [affine_align_default, hne]
  · simp [affine_align_default]

/-- Witness for the amended claim C5: a non-identity explicit default is kept
even when a matrix initial condition is supplied. -/
theorem affine_align_default_resolution_witness :
    ([[2, 0], [0, 1]] : Mat ℤ) ≠ np_eye ℤ (1 + 1) ∧
    affine_align_default 1 (some ([[2, 0], [0, 1]] : Mat ℤ))
        (InitialCondition.matrix [[3, 0], [0, 3]]) = [[2, 0], [0, 1]] := by
  refine ⟨by decide, ?_⟩
  exact (affine_align_default_resolution 1 [[2, 0], [0, 1]] [[3, 0], [0, 3]]
    (InitialCondition.matrix [[3, 0], [0, 3]])).2.2.2.1 (by decide)

/- ----------------------------------------------------------------------
deformable_align initial control-point grid (lines 1042-1044)
---------------------------------------------------------------------- -/

/-- Python `int()`: truncation toward zero. -/
def py_int (q : ℚ) : ℤ := if q < 0 then -(Rat.floor (-q)) else Rat.floor q

/-- The initial control-point grid of `deformable_align`:
`z = control_point_spacing * control_point_levels[0]` and
`initial_cp_grid = [max(1, int(x*y/z)) for x, y in zip(fix.GetSize(),
fix.GetSpacing())]`, one cell count per axis. -/
def initial_cp_grid (size : List ℕ) (spacing : List ℚ) (z : ℚ) : List ℤ :=
  (size.zip spacing).map (fun p => max 1 (py_int ((p.1 : ℚ) * p.2 / z)))

/-- The grid the claim describes, with `round` in place of `int`. -/
def claimed_cp_grid (size : List ℕ) (spacing : List ℚ) (z : ℚ) : List ℤ :=
  (size.zip spacing).map (fun p => max 1 (round ((p.1 : ℚ) * p.2 / z)))

/-- Claim C4 counterexample: a 19-voxel axis with spacing 10 under coarsest
control-point spacing 100 spans 1.9 cells; `int()` truncates to 1 cell while
the claimed `round` would give 2. -/
theorem cp_grid_not_rounded :
    initial_cp_grid [19] [10] 100 = [1] ∧
    claimed_cp_grid [19] [10] 100 = [2] ∧ (1 : ℤ) ≠ 2 := by
  have hq : ((19 : ℕ) : ℚ) * 10 / 100 = 19 / 10 := by norm_num
  have hfloor : ⌊(19 / 10 : ℚ)⌋ = 1 := by
    rw [Int.floor_eq_iff]
    norm_num
  have hpy : py_int (((19 : ℕ) : ℚ) * 10 / 100) = 1 := by
    rw [py_int, if_neg (by rw [hq]; norm_num), rat_floor_eq_floor, hq, hfloor]
  have hround : round (((19 : ℕ) : ℚ) * 10 / 100) = 2 := by
    rw [hq, round_eq, show (19 / 10 + 1 / 2 : ℚ) = 12 / 5 by norm_num,
      Int.floor_eq_iff]
    norm_num
  refine ⟨?_, ?_, by decide⟩
  · show [max 1 (py_int (((19 : ℕ) : ℚ) * 10 / 100))] = [1]
    rw [hpy]
    norm_num
  · show [max 1 (round (((19 : ℕ) : ℚ) * 10 / 100))] = [2]
    rw [hround]
    norm_num

/-- Claim C4 (amended): each axis of the initial control-point grid equals
`max(1, ⌊count * spacing / coarsest_spacing⌋)` — `int()` truncation, which for
the nonnegative physical sizes involved is the floor, not `round` — and in
particular every cell count is at least 1. -/
theorem cp_grid_floor_formula (size : List ℕ) (spacing : List ℚ) (z : ℚ)
    (hz : 0 < z) (hs : ∀ y ∈ spacing, 0 ≤ y) :
    initial_cp_grid size spacing z
      = (size.zip spacing).map (fun p => max 1 ⌊(p.1 : ℚ) * p.2 / z⌋) ∧
    ∀ g ∈ initial_cp_grid size spacing z, 1 ≤ g := by
  have key : initial_cp_grid size spacing z
      = (size.zip spacing).map (fun p => max 1 ⌊(p.1 : ℚ) * p.2 / z⌋) := by
    rw [initial_cp_grid]
    refine List.map_congr_left (fun p hp => ?_)
    have hy : (0 : ℚ) ≤ p.2 := hs p.2 (List.of_mem_zip hp).2
    have hx : (0 : ℚ) ≤ (p.1 : ℚ) := Nat.cast_nonneg p.1
    have hnonneg : (0 : ℚ) ≤ (p.1 : ℚ) * p.2 / z :=
      div_nonneg (mul_nonneg hx hy) hz.le
    rw [py_int, if_neg (not_lt.mpr hnonneg), rat_floor_eq_floor]
  refine ⟨key, fun g hg => ?_⟩
  rw [key] at hg
  obtain ⟨p, hp, rfl⟩ := List.mem_map.mp hg
  exact le_max_left 1 _

/-- Witness for the amended claim C4 on a one-axis grid. -/
theorem cp_grid_floor_formula_witness :
    initial_cp_grid [1] [1] 1
      = (List.zip [1] [(1 : ℚ)]).map (fun p => max 1 ⌊(p.1 : ℚ) * p.2 / 1⌋) ∧
    ∀ g ∈ initial_cp_grid [1] [1] 1, 1 ≤ g :=
  cp_grid_floor_formula [1] [1] 1 zero_lt_one (by simp)

/- ----------------------------------------------------------------------
alignment_pipeline, compressed return format (lines 1221-1226)
---------------------------------------------------------------------- -/

/-- `np.where(shapes[:-1] != shapes[1:])[0] + 1` over the rank-1 array of
result shapes: the absolute positions at which the shape differs from its
predecessor, each emitted as `pair index + 1`; `start_index` is the absolute
index of the head of the remaining list. -/
def shape_change_points {S : Type} [DecidableEq S] : List S → Nat → List Nat
  | s :: t :: rest, start_index =>
      (if s ≠ t then [start_index + 1] else [])
        ++ shape_change_points (t :: rest) (start_index + 1)
  | _, _ => []

/-- `[F(a, b) for a, b in zip(changes[:-1], changes[1:])]` where `F(a, b)`
slices `ts[a:b]`: one slice per adjacent boundary pair. -/
def slice_groups {T : Type} (ts : List T) : List Nat → List (List T)
  | a :: b :: rest => ((ts.drop a).take (b - a)) :: slice_groups ts (b :: rest)
  | _ => []

/-- The `compressed` return format of `alignment_pipeline`: boundaries are
`[0] + changes + [len(new_transforms)]` and every slice is composed by the
(external) `compose_transform_list`, here the oracle `compose`. -/
def alignment_pipeline_compressed {T S : Type} [DecidableEq S]
    (shape : T → S) (compose : List T → T) (ts : List T) : List T :=
  let changes := 0 :: shape_change_points (ts.map shape) 0 ++ [ts.length]
  (slice_groups ts changes).map compose

/-- The partition the claim describes: maximal runs of adjacent elements with
equal shape. -/
def shape_runs {T S : Type} [DecidableEq S] (shape : T → S) : List T → List (List T)
  | [] => []
  | [x] => [[x]]
  | x :: y :: rest =>
      match shape_runs shape (y :: rest) with
      | [] => [[x]]
      | g :: gs =>
          if shape x = shape y then (x :: g) :: gs else [x] :: g :: gs

/-- `shape_runs` of a nonempty list is nonempty. -/
theorem shape_runs_ne_nil {T S : Type} [DecidableEq S] (shape : T → S) :
    ∀ (x : T) (l : List T), shape_runs shape (x :: l) ≠ []
  | _, [] => by simp [shape_runs]
  | x, y :: rest => by
      rw [shape_runs]
      rcases h : shape_runs shape (y :: rest) with _ | ⟨g, gs⟩
      · simp
      · by_cases hxy : shape x = shape y <;> simp [hxy]

/-- Shifting the start index shifts every emitted change point. -/
theorem shape_change_points_shift {S : Type} [DecidableEq S] :
    ∀ (shapes : List S) (i : Nat),
      shape_change_points shapes (i + 1)
        = (shape_change_points shapes i).map (· + 1)
  | [], _ => rfl
  | [_], _ => rfl
  | s :: t :: rest, i => by
      rw [shape_change_points, shape_change_points,
        shape_change_points_shift (t :: rest) (i + 1)]
      by_cases h : s = t <;> simp [h]

/-- Slicing a cons list at uniformly shifted boundaries slices the tail. -/
theorem slice_groups_shift {T : Type} (x : T) :
    ∀ (bs : List Nat) (ts : List T),
      slice_groups (x :: ts) (bs.map (· + 1)) = slice_groups ts bs
  | [], _ => rfl
  | [_], _ => rfl
  | a :: b :: rest, ts => by
      rw [List.map_cons, List.map_cons, slice_groups, slice_groups,
        ← List.map_cons (· + 1) b rest, slice_groups_shift x (b :: rest) ts]
      simp [Nat.succ_sub_succ]

/-- Prepending an element with the same shape as the old head extends the
first run. -/
theorem shape_runs_cons_eq {T S : Type} [DecidableEq S] (shape : T → S)
    (x y : T) (rest : List T) (g : List T) (gs : List (List T))
    (h : shape x = shape y) (hr : shape_runs shape (y :: rest) = g :: gs) :
    shape_runs shape (x :: y :: rest) = (x :: g) :: gs := by
  rw [shape_runs]
  simp only [hr]
  rw [if_pos h]

/-- Prepending an element with a different shape than the old head starts a
new singleton run. -/
theorem shape_runs_cons_ne {T S : Type} [DecidableEq S] (shape : T → S)
    (x y : T) (rest : List T) (h : shape x ≠ shape y) :
    shape_runs shape (x :: y :: rest) = [x] :: shape_runs shape (y :: rest) := by
  rcases hr : shape_runs shape (y :: rest) with _ | ⟨g, gs⟩
  · exact absurd hr (shape_runs_ne_nil shape y rest)
  · rw [shape_runs]
    simp only [hr]
    rw [if_neg h]

/-- Slicing a cons list from boundary 0 with shifted tail boundaries takes the
head into the first slice. -/
theorem slice_groups_head_cons {T : Type} (x : T) (ts : List T) (c : Nat)
    (cs : List Nat) :
    slice_groups (x :: ts) (0 :: (c :: cs).map (· + 1))
      = (x :: ts.take c) :: slice_groups ts (c :: cs) := by
  rw [← slice_groups_shift x (c :: cs) ts]
  rfl

/-- The boundary-slicing computation of the source equals the maximal-run
partition, for nonempty result lists. -/
theorem slice_groups_eq_shape_runs {T S : Type} [DecidableEq S] (shape : T → S) :
    ∀ (ts : List T), ts ≠ [] →
      slice_groups ts (0 :: shape_change_points (ts.map shape) 0 ++ [ts.length])
        = shape_runs shape ts
  | [], h => absurd rfl h
  | [x], _ => by simp [shape_change_points, slice_groups, shape_runs]
  | x :: y :: rest, _ => by
      have ih := slice_groups_eq_shape_runs shape (y :: rest) (by simp)
      obtain ⟨c, cs, hB⟩ : ∃ c cs,
          shape_change_points ((y :: rest).map shape) 0 ++ [(y :: rest).length]
            = c :: cs :=
        List.exists_cons_of_ne_nil (by simp)
      have ih0 : slice_groups (y :: rest) (0 :: c :: cs)
          = shape_runs shape (y :: rest) := by
        rw [← hB]
        exact ih
      have hmap : (shape_change_points ((y :: rest).map shape) 0).map (· + 1)
            ++ [(x :: y :: rest).length] = (c :: cs).map (· + 1) := by
        rw [← hB, List.map_append]
        rfl
      by_cases hxy : shape x = shape y
      · have ihs : (y :: rest).take c :: slice_groups (y :: rest) (c :: cs)
            = shape_runs shape (y :: rest) := by
          rw [← ih0, slice_groups]
          simp only [List.drop_zero, Nat.sub_zero]
        show slice_groups (x :: y :: rest)
            (0 :: ((if shape x ≠ shape y then [0 + 1] else [])
              ++ shape_change_points (shape y :: List.map shape rest) (0 + 1)
              ++ [(x :: y :: rest).length]))
          = shape_runs shape (x :: y :: rest)
        rw [if_neg (by simpa using hxy), List.nil_append,
          shape_change_points_shift,
          show (shape y :: List.map shape rest) = List.map shape (y :: rest)
            from rfl,
          hmap, slice_groups_head_cons,
          shape_runs_cons_eq shape x y rest ((y :: rest).take c)
            (slice_groups (y :: rest) (c :: cs)) hxy ihs.symm]
      · show slice_groups (x :: y :: rest)
            (0 :: ((if shape x ≠ shape y then [0 + 1] else [])
              ++ shape_change_points (shape y :: List.map shape rest) (0 + 1)
              ++ [(x :: y :: rest).length]))
          = shape_runs shape (x :: y :: rest)
        rw [if_pos (by simpa using hxy), shape_change_points_shift,
          show (shape y :: List.map shape rest) = List.map shape (y :: rest)
            from rfl,
          List.append_assoc, hmap,
          show ([0 + 1] ++ (c :: cs).map (· + 1) : List Nat)
            = (0 :: c :: cs).map (· + 1) from rfl,
          slice_groups_head_cons x (y :: rest) 0 (c :: cs),
          ih0, shape_runs_cons_ne shape x y rest hxy]
        rfl

/-- Claim C8: the compressed return format partitions the ordered per-step
results into maximal runs of adjacent results with equal array shape and
returns one transform per run, the composition of that run; grouping depends
only on shape equality, not on the stage kind, and a result-shape sequence
matrix, matrix, field, field, matrix, field (from step kinds random, affine,
deform, deform, affine, deform) yields exactly 4 transforms. -/
theorem alignment_pipeline_compressed_is_runs {T S : Type} [DecidableEq S]
    (shape : T → S) (compose : List T → T) :
    (∀ ts : List T, ts ≠ [] →
      alignment_pipeline_compressed shape compose ts
        = (shape_runs shape ts).map compose) ∧
    (∀ t1 t2 t3 t4 t5 t6 : T, ∀ sA sD : S, sA ≠ sD →
      shape t1 = sA → shape t2 = sA → shape t3 = sD → shape t4 = sD →
      shape t5 = sA → shape t6 = sD →
      (alignment_pipeline_compressed shape compose
        [t1, t2, t3, t4, t5, t6]).length = 4) := by
  have main : ∀ ts : List T, ts ≠ [] →
      alignment_pipeline_compressed shape compose ts
        = (shape_runs shape ts).map compose := by
    intro ts hts
    rw [alignment_pipeline_compressed, slice_groups_eq_shape_runs shape ts hts]
  refine ⟨main, ?_⟩
  intro t1 t2 t3 t4 t5 t6 sA sD hAD h1 h2 h3 h4 h5 h6
  rw [main [t1, t2, t3, t4, t5, t6] (by simp), List.length_map]
  simp [shape_runs, h1, h2, h3, h4, h5, h6, hAD, Ne.symm hAD]

/-- Witness for claim C8 with shapes drawn as the first components of pairs. -/
theorem alignment_pipeline_compressed_is_runs_witness :
    (alignment_pipeline_compressed (Prod.fst : ℕ × ℕ → ℕ) (fun _ => (0, 0))
      [(0, 1), (0, 2), (1, 3), (1, 4), (0, 5), (1, 6)]).length = 4 :=
  (alignment_pipeline_compressed_is_runs Prod.fst (fun _ => (0, 0))).2
    (0, 1) (0, 2) (1, 3) (1, 4) (0, 5) (1, 6) 0 1 (by decide)
    rfl rfl rfl rfl rfl rfl

/- ----------------------------------------------------------------------
random_affine_search parameter draws (lines 611-618)
---------------------------------------------------------------------- -/

/-- The per-component random draw of the source,
`F = lambda mx: 2 * (mx * np.random.rand(...)) - mx`, with the uniform draw
`r` in `[0, 1)` made explicit. -/
def rand_param (mx r : ℝ) : ℝ := 2 * (mx * r) - mx

/-- A drawn scale component: `np.e ** F(np.log(max_scale))`. -/
noncomputable def rand_scale (mx r : ℝ) : ℝ :=
  Real.exp (rand_param (Real.log mx) r)

/-- `e^(1/2) < 2`, from `e < 2.7182818286 < 4`. -/
theorem exp_half_lt_two : Real.exp (1 / 2) < 2 := by
  have hsq : Real.exp (1 / 2) * Real.exp (1 / 2) = Real.exp 1 := by
    rw [← Real.exp_add]
    norm_num
  nlinarith [Real.exp_pos (1 / 2), Real.exp_one_lt_d9]

/-- Claim C9 counterexample: with scale bound `b = 1/2` and draw `r = 0` the
generated scale component is `exp(-log(1/2)) = 2`, outside the claimed
interval `[1/e^b, e^b] = [e^(-1/2), e^(1/2)]` because `e^(1/2) < 2`: the
claimed interval is wrong for scale bounds below 1 (the true range is between
`b` and `1/b`). -/
theorem rand_scale_outside_claimed_interval :
    (0 : ℝ) ≤ 0 ∧ (0 : ℝ) < 1 ∧ (0 : ℝ) < 1 / 2 ∧
    rand_scale (1 / 2) 0 = 2 ∧
    rand_scale (1 / 2) 0 ∉ Set.Icc (Real.exp (1 / 2))⁻¹ (Real.exp (1 / 2)) := by
  have hval : rand_scale (1 / 2) 0 = 2 := by
    rw [rand_scale, rand_param]
    rw [show (2 * (Real.log (1 / 2) * 0) - Real.log (1 / 2))
        = -Real.log (1 / 2) by ring]
    rw [show ((1 : ℝ) / 2) = 2⁻¹ by norm_num, Real.log_inv, neg_neg,
      Real.exp_log (by norm_num)]
  refine ⟨le_refl 0, zero_lt_one, by norm_num, hval, ?_⟩
  rw [hval]
  intro hmem
  exact absurd hmem.2 (not_le.mpr exp_half_lt_two)

/-- Claim C9 (amended): for nonnegative translation/rotation/shear bounds and
every draw `r` in `[0, 1)`, the drawn component lies in `[-bound, bound]`; each
drawn scale component is positive and lies between `min(b, 1/b)` and
`max(b, 1/b)` (it is `exp` of a uniform draw in log-space, whose range is
`[-|log b|, |log b|]`); and for scale bounds `b ≥ 1` this range is contained
in the claimed interval `[1/e^b, e^b]`. -/
theorem rand_params_within_bounds (bt bs r : ℝ) (hbt : 0 ≤ bt) (hbs : 0 < bs)
    (hr0 : 0 ≤ r) (hr1 : r < 1) :
    (-bt ≤ rand_param bt r ∧ rand_param bt r ≤ bt) ∧
    0 < rand_scale bs r ∧
    (min bs bs⁻¹ ≤ rand_scale bs r ∧ rand_scale bs r ≤ max bs bs⁻¹) ∧
    (1 ≤ bs → (Real.exp bs)⁻¹ ≤ rand_scale bs r ∧ rand_scale bs r ≤ Real.exp bs) := by
  have htr : -bt ≤ rand_param bt r ∧ rand_param bt r ≤ bt := by
    constructor
    · rw [rand_param]; nlinarith
    · rw [rand_param]; nlinarith
  have habs : -|Real.log bs| ≤ rand_param (Real.log bs) r ∧
      rand_param (Real.log bs) r ≤ |Real.log bs| := by
    rcases abs_cases (Real.log bs) with ⟨hab, hsign⟩ | ⟨hab, hsign⟩ <;>
      rw [rand_param, hab] <;> constructor <;> nlinarith
  have hsc : Real.exp (-|Real.log bs|) ≤ rand_scale bs r ∧
      rand_scale bs r ≤ Real.exp |Real.log bs| := by
    rw [rand_scale]
    exact ⟨Real.exp_le_exp.mpr habs.1, Real.exp_le_exp.mpr habs.2⟩
  have hminmax : Real.exp (-|Real.log bs|) = min bs bs⁻¹ ∧
      Real.exp |Real.log bs| = max bs bs⁻¹ := by
    rcases le_total 1 bs with hb1 | hb1
    · have hlog : 0 ≤ Real.log bs := Real.log_nonneg hb1
      have hinv : bs⁻¹ ≤ bs := by
        have h1 : bs⁻¹ ≤ 1 := inv_le_one hb1
        linarith
      rw [abs_of_nonneg hlog, ← Real.log_inv, Real.exp_log (by positivity),
        Real.exp_log hbs, min_eq_right hinv, max_eq_left hinv]
      exact ⟨rfl, rfl⟩
    · have hlog : Real.log bs ≤ 0 := Real.log_nonpos hbs.le hb1
      have hinv : bs ≤ bs⁻¹ := by
        have h1 : 1 ≤ bs⁻¹ := one_le_inv hbs hb1
        nlinarith
      rw [abs_of_nonpos hlog, neg_neg, Real.exp_log hbs, ← Real.log_inv,
        Real.exp_log (by positivity), min_eq_left hinv, max_eq_right hinv]
      exact ⟨rfl, rfl⟩
  refine ⟨htr, Real.exp_pos _, ⟨?_, ?_⟩, ?_⟩
  · rw [← hminmax.1]; exact hsc.1
  · rw [← hminmax.2]; exact hsc.2
  · intro hb1
    have hmax : max bs bs⁻¹ = bs := by
      have h1 : bs⁻¹ ≤ 1 := inv_le_one hb1
      exact max_eq_left (by linarith)
    have hexp : bs ≤ Real.exp bs := by
      have := Real.add_one_le_exp bs
      linarith
    constructor
    · have h2 : (Real.exp bs)⁻¹ ≤ bs⁻¹ := by
        exact inv_le_inv_of_le hbs hexp
      calc (Real.exp bs)⁻¹ ≤ bs⁻¹ := h2
        _ = min bs bs⁻¹ := by
            rw [min_eq_right]
            have h1 : bs⁻¹ ≤ 1 := inv_le_one hb1
            linarith
        _ ≤ rand_scale bs r := by rw [← hminmax.1]; exact hsc.1
    · calc rand_scale bs r ≤ max bs bs⁻¹ := by rw [← hminmax.2]; exact hsc.2
        _ = bs := hmax
        _ ≤ Real.exp bs := hexp

/-- Witness for the amended claim C9 at translation bound 1, scale bound 1 and
draw 0. -/
theorem rand_params_within_bounds_witness :
    (-(1 : ℝ) ≤ rand_param 1 0 ∧ rand_param 1 0 ≤ 1) ∧
    0 < rand_scale 1 0 ∧
    (min (1 : ℝ) (1 : ℝ)⁻¹ ≤ rand_scale 1 0 ∧
      rand_scale 1 0 ≤ max (1 : ℝ) (1 : ℝ)⁻¹) ∧
    ((1 : ℝ) ≤ 1 → (Real.exp 1)⁻¹ ≤ rand_scale 1 0 ∧
      rand_scale 1 0 ≤ Real.exp 1) :=
  rand_params_within_bounds 1 1 0 zero_le_one zero_lt_one (le_refl 0) zero_lt_one
